import Mathlib

/-!
Shallow embedding of `src/git-branch-cleanup/scripts/git_branch_cleanup.py`.

The classification engine (`GitBranchCleanup.analyze_branches`) is modelled as a
pure fold over the per-branch data the script gathers from git.  Everything the
script obtains by running git (the list of local branches, the per-branch
`git log` / `for-each-ref` output, the merged / unmerged / gone name sets, the
current branch) is an input of the Lean function; the decision logic itself is
translated line by line.

Python's `datetime` values are modelled as integer seconds; `datetime.strptime`
of a `%Y-%m-%d` string yields midnight of that civil day, i.e. `day * 86400`
where `day` is the civil day number (days since 1970-01-01).  The call
`datetime.now()` made inside `_is_stale` is modelled by the `now` parameter
threaded into the embedding: it stands for the wall-clock value the process
reads during the run.
-/

namespace GBC

/-- Civil-calendar leap year test. -/
def isLeap (y : Nat) : Bool :=
  (y % 4 == 0 && y % 100 != 0) || y % 400 == 0

/-- Number of days in month `m` of year `y` (as `datetime` validates). -/
def daysInMonth (y m : Nat) : Nat :=
  if m = 2 then (if isLeap y then 29 else 28)
  else if m = 4 || m = 6 || m = 9 || m = 11 then 30
  else 31

/-- Civil day number of `y-m-d`: days since 1970-01-01 (negative before).
Standard civil-from-days algorithm; all intermediate values are naturals
because `datetime` only admits years 1..9999. -/
def daysFromCivil (y m d : Nat) : Int :=
  let yAdj : Nat := if m ≤ 2 then y - 1 else y
  let era : Nat := yAdj / 400
  let yoe : Nat := yAdj % 400
  let mp : Nat := (m + 9) % 12
  let doy : Nat := (153 * mp + 2) / 5 + d - 1
  let doe : Nat := yoe * 365 + yoe / 4 - yoe / 100 + doy
  (Int.ofNat (era * 146097 + doe)) - 719468

/-- Split a character list at every character satisfying `p`; pieces may be
empty, matching Python `str.split(sep)` semantics for a one-character
separator. -/
def splitPiecesAux (p : Char → Bool) : List Char → List Char → List (List Char)
  | [], cur => [cur.reverse]
  | c :: rest, cur =>
    if p c then cur.reverse :: splitPiecesAux p rest []
    else splitPiecesAux p rest (c :: cur)

/-- Split a string at every character satisfying `p`. -/
def splitPieces (p : Char → Bool) (s : String) : List String :=
  (splitPiecesAux p s.data []).map (fun l => String.mk l)

/-- Python `s.split(sep)` for a one-character separator (used for the `'|'`
splits and the `-` fields of `%Y-%m-%d`). -/
def splitOnChar (sep : Char) (s : String) : List String :=
  splitPieces (fun c => c = sep) s

/-- Parse a decimal numeral (used for the `%Y`, `%m`, `%d` fields). -/
def parseNatDigits (s : String) : Option Nat :=
  if s.data ≠ [] && s.data.all Char.isDigit then
    some (s.data.foldl (fun acc c => acc * 10 + (c.toNat - 48)) 0)
  else none

/-- `datetime.strptime(tok, '%Y-%m-%d')`, returning midnight of the parsed
date as a civil day number; `none` models the `ValueError` path (swallowed by
the bare `except` in `_is_stale`).  `datetime` accepts years 1..9999 and
validates the day against the month length. -/
def strptimeYMD (s : String) : Option Int :=
  match splitOnChar '-' s with
  | [ys, ms, ds] =>
    match parseNatDigits ys, parseNatDigits ms, parseNatDigits ds with
    | some y, some m, some d =>
      if 1 ≤ y && y ≤ 9999 && 1 ≤ m && m ≤ 12 && 1 ≤ d && d ≤ daysInMonth y m
      then some (daysFromCivil y m d)
      else none
    | _, _, _ => none
  | _ => none

/-- Python `commit_date.split()[0]`: first maximal run of non-whitespace;
`none` models the `IndexError` on a whitespace-only string. -/
def firstToken (s : String) : Option String :=
  ((splitPieces Char.isWhitespace s).filter (fun t => t ≠ "")).head?

/-- The date-extraction part of `GitBranchCleanup._is_stale` (lines 128-131
and the `except` fallthrough): empty string and unparsable strings yield
`none`. -/
def parse_commit_day (commit_date : String) : Option Int :=
  if commit_date = "" then none
  else
    match firstToken commit_date with
    | none => none
    | some t => strptimeYMD t

/-- `GitBranchCleanup._is_stale` (lines 126-135).  `commit_dt` is midnight of
the commit's calendar date; `cutoff_dt = datetime.now() - timedelta(days=stale_days)`
where `now` is the wall-clock reading in seconds. -/
def is_stale (stale_days now : Int) (commit_date : String) : Bool :=
  match parse_commit_day commit_date with
  | none => false
  | some day => decide (day * 86400 < now - stale_days * 86400)

/-- `BranchCategory` (lines 16-22). -/
inductive BranchCategory where
  | MERGED
  | GONE_REMOTE
  | AHEAD
  | STALE
  | UNMERGED
deriving DecidableEq

/-- `BranchInfo` (lines 25-35).  Python dataclass equality is field-wise,
matching the derived `DecidableEq`. -/
structure BranchInfo where
  name : String
  category : BranchCategory
  commit_date : String
  relative_date : String
  subject : String
  upstream : Option String
  trackshort : Option String
  is_protected : Bool
deriving DecidableEq

/-- The raw strings `_get_branch_info` (lines 89-124) receives from git for
one branch: `git log -1 --format=%ci|%cr`, `git log -1 --format=%s`, and
`for-each-ref --format=%(upstream:short)|%(upstream:trackshort)`.  An empty
string is what the script sees when the command produced no output. -/
structure RawBranchData where
  date_output : String
  subject_output : String
  upstream_output : String
deriving DecidableEq

/-- The `info` dict built by `_get_branch_info`. -/
structure InfoDict where
  commit_date : String
  relative_date : String
  subject : String
  upstream : Option String
  trackshort : Option String
deriving DecidableEq

/-- `GitBranchCleanup._get_branch_info` (lines 89-124).  `parts[i]` accesses
become `headD` / `head?` on the split (a split on a one-character separator is
never empty, so `parts[0]` always exists). -/
def get_branch_info (raw : RawBranchData) : InfoDict :=
  let dateFields :=
    if raw.date_output ≠ "" then
      let parts := splitOnChar '|' raw.date_output
      (parts.headD "", (parts.drop 1).headD "")
    else ("", "不明")
  let upFields :=
    if raw.upstream_output ≠ "" then
      let parts := splitOnChar '|' raw.upstream_output
      (some (parts.headD ""), (parts.drop 1).head?)
    else ((none : Option String), (none : Option String))
  { commit_date := dateFields.1
    relative_date := dateFields.2
    subject := raw.subject_output
    upstream := upFields.1
    trackshort := upFields.2 }

/-- The `categories` dict (lines 144-150): one list per category. -/
structure Categories where
  merged : List BranchInfo
  gone_remote : List BranchInfo
  ahead : List BranchInfo
  stale : List BranchInfo
  unmerged : List BranchInfo
deriving DecidableEq

/-- `categories[cat]` lookup. -/
def Categories.get (c : Categories) : BranchCategory → List BranchInfo
  | .MERGED => c.merged
  | .GONE_REMOTE => c.gone_remote
  | .AHEAD => c.ahead
  | .STALE => c.stale
  | .UNMERGED => c.unmerged

/-- The empty `categories` dict. -/
def Categories.empty : Categories := ⟨[], [], [], [], []⟩

/-- `GitBranchCleanup.PROTECTED_BRANCHES` (line 42). -/
def PROTECTED_BRANCHES : List String :=
  ["main", "master", "trunk", "develop", "development"]

/-- `GitBranchCleanup._is_protected_branch` (lines 78-80); `not branch` is
true exactly for the empty string. -/
def is_protected_branch (current branch : String) : Bool :=
  PROTECTED_BRANCHES.contains branch || branch == current || branch == ""

/-- The test `branch_info.trackshort and '>' in branch_info.trackshort`
(line 208): `None` and `""` are falsy. -/
def aheadCheck : Option String → Bool
  | none => false
  | some ts => ts ≠ "" && ts.data.contains '>'

/-- The `BranchInfo(...)` construction of lines 196-205, with the category
the object carries once the loop body for this branch has finished.  The
script appends one mutable object and keeps assigning to its `category`
field afterwards, so every list entry for the branch aliases the same object
and shows the *last* category assigned; the embedding therefore computes that
final category first and stores it in every copy appended. -/
def mkBranchInfo (current branch : String) (info : InfoDict)
    (cat : BranchCategory) : BranchInfo :=
  { name := branch
    category := cat
    commit_date := info.commit_date
    relative_date := info.relative_date
    subject := info.subject
    upstream := info.upstream
    trackshort := info.trackshort
    is_protected := is_protected_branch current branch }

/-- The category the branch's `BranchInfo` object holds at the end of the
loop body (successive assignments at lines 198, 209, 215, 220, 223: the
default is `MERGED`; `AHEAD` short-circuits with `continue`; a `GONE_REMOTE`
assignment is overwritten when the merged/unmerged checks also fire). -/
def finalCategory (gone merged unmerged : List String) (branch : String)
    (ahead : Bool) : BranchCategory :=
  if ahead then .AHEAD
  else if branch ∈ merged then .MERGED
  else if branch ∈ unmerged then .UNMERGED
  else if branch ∈ gone then .GONE_REMOTE
  else .MERGED

/-- One iteration of the `for branch in all_branches` loop of
`analyze_branches` (lines 191-231).  `gone`, `merged`, `unmerged` are the
name sets parsed from `git branch -vv` / `--merged` / `--no-merged`. -/
def classify_step (stale_days now : Int) (gone merged unmerged : List String)
    (current : String) (acc : Categories) (pair : String × RawBranchData) :
    Categories :=
  let branch := pair.1
  if is_protected_branch current branch then acc
  else
    let info := get_branch_info pair.2
    let bi := mkBranchInfo current branch info
      (finalCategory gone merged unmerged branch (aheadCheck info.trackshort))
    if aheadCheck info.trackshort then
      { acc with ahead := acc.ahead ++ [bi] }
    else
      let acc1 :=
        if branch ∈ gone then
          { acc with gone_remote := acc.gone_remote ++ [bi] }
        else acc
      let acc2 :=
        if branch ∈ merged then { acc1 with merged := acc1.merged ++ [bi] }
        else if branch ∈ unmerged then
          { acc1 with unmerged := acc1.unmerged ++ [bi] }
        else acc1
      if is_stale stale_days now bi.commit_date then
        if bi.category ≠ BranchCategory.AHEAD then
          if bi ∉ acc2.get bi.category then
            { acc2 with stale := acc2.stale ++ [bi] }
          else acc2
        else acc2
      else acc2

/-- `GitBranchCleanup.analyze_branches` (lines 137-233) restricted to its
decision logic: the git queries become the `gone` / `merged` / `unmerged`
sets and the per-branch raw data; `now` is the wall-clock reading used by
`_is_stale`. -/
def analyze_branches (stale_days now : Int)
    (gone merged unmerged : List String) (current : String)
    (branches : List (String × RawBranchData)) : Categories :=
  branches.foldl (classify_step stale_days now gone merged unmerged current)
    Categories.empty

/-- The object state built by `GitBranchCleanup.__init__` (lines 44-48).
`base_branch` / `current_branch` are the results of the two git queries the
constructor makes; the constructor stores its arguments without any
validation. -/
structure GitBranchCleanup where
  stale_days : Int
  dry_run : Bool
  base_branch : String
  current_branch : String
deriving DecidableEq

/-- `GitBranchCleanup.__init__` (lines 44-48): every field is stored as
given, with no check on `stale_days`. -/
def GitBranchCleanup.init (stale_days : Int) (dry_run : Bool)
    (base_branch current_branch : String) : GitBranchCleanup :=
  { stale_days := stale_days
    dry_run := dry_run
    base_branch := base_branch
    current_branch := current_branch }

/-- Python `str.lower()` (ASCII part suffices for the `'y'` comparison). -/
def strToLower (s : String) : String := String.mk (s.data.map Char.toLower)

/-- `GitBranchCleanup.delete_branches` (lines 297-331), modelled as the pair
(one string per `print` call, in order; git argument lists handed to
`_run_git_command`, in order).  `confirm` is the `input()` reply (its prompt
string is not a `print` call and is not modelled) and `git_exit` the exit
status git returns for each invocation. -/
def delete_branches (git_exit : List String → Int) (dry_run force : Bool)
    (confirm : String) (branches : List String) :
    List String × List (List String) :=
  if branches = [] then (["削除するブランチがありません。"], [])
  else
    let header := ["\n以下のブランチが削除されます："] ++
      branches.map (fun b => "  - " ++ b)
    if dry_run then
      (header ++ ["\n[ドライラン] 実際には削除されません。"], [])
    else if strToLower confirm ≠ "y" then
      (header ++ ["キャンセルしました。"], [])
    else
      let cmd := fun b => ["branch", if force then "-D" else "-d", b]
      let resultLines := branches.map (fun b =>
        if git_exit (cmd b) == 0 then "✓ 削除: " ++ b else "✗ 削除失敗: " ++ b)
      let deleted := (branches.filter (fun b => git_exit (cmd b) == 0)).length
      let failed := branches.length - deleted
      (header ++ resultLines ++
        ["\n削除完了: " ++ toString deleted ++ "個"] ++
        (if failed > 0 then ["削除失敗: " ++ toString failed ++ "個"] else []),
       branches.map cmd)

/-- Effect of one issued git invocation on the set of local branch names:
a `git branch -d NAME` (or `-D`) call removes `NAME` (when it succeeds); anything
else leaves the branch set alone.  Used to state the frame property of a
dry run. -/
def applyCmd (bs : List String) (cmd : List String) : List String :=
  match cmd with
  | ["branch", f, b] =>
    if f = "-d" || f = "-D" then bs.filter (fun x => x ≠ b) else bs
  | _ => bs

/-- Effect of a command sequence on the branch set. -/
def applyCmds (bs : List String) (cmds : List (List String)) : List String :=
  cmds.foldl applyCmd bs

/-- Number of entries with name `n` in one category list. -/
def countNames (l : List BranchInfo) (n : String) : Nat :=
  l.countP (fun bi => bi.name == n)

/-- Total number of entries carrying name `n` across all five category
lists of a result. -/
def countIn (c : Categories) (n : String) : Nat :=
  countNames c.merged n + countNames c.gone_remote n + countNames c.ahead n +
    countNames c.stale n + countNames c.unmerged n

/-- A protected branch is skipped by `continue`: the accumulator is
untouched. -/
theorem classify_step_protected (sd now : Int)
    (gone merged unmerged : List String) (current : String) (acc : Categories)
    (pair : String × RawBranchData)
    (h : is_protected_branch current pair.1 = true) :
    classify_step sd now gone merged unmerged current acc pair = acc := by
  simp [classify_step, h]

/-- Processing one branch never adds or removes entries carrying a different
branch name. -/
theorem countIn_classify_step_ne (sd now : Int)
    (gone merged unmerged : List String) (current : String) (acc : Categories)
    (b : String) (raw : RawBranchData) (n : String) (h : b ≠ n) :
    countIn (classify_step sd now gone merged unmerged current acc (b, raw)) n =
      countIn acc n := by
  have hbn : (b == n) = false := by simp [h]
  by_cases hp : is_protected_branch current b
  · simp [classify_step, hp]
  · by_cases ha : aheadCheck (get_branch_info raw).trackshort
    · simp [classify_step, hp, ha, countIn, countNames, List.countP_append,
        List.countP_cons, mkBranchInfo, hbn]
    · by_cases hg : b ∈ gone <;> by_cases hm : b ∈ merged <;>
        by_cases hu : b ∈ unmerged <;>
        · simp only [classify_step, hp, ha, hg, hm, hu, if_true, if_false,
            ite_true, ite_false, Bool.false_eq_true, not_false_eq_true]
          split_ifs <;>
            simp [countIn, countNames, List.countP_append, List.countP_cons,
              mkBranchInfo, hbn]

/-- A non-protected branch whose `trackshort` contains `>` is handled by the
`continue` at line 211: its `BranchInfo` (category `AHEAD`) is appended to
the ahead list and nothing else changes. -/
theorem classify_step_ahead (sd now : Int)
    (gone merged unmerged : List String) (current : String) (acc : Categories)
    (b : String) (raw : RawBranchData)
    (hp : is_protected_branch current b = false)
    (ha : aheadCheck (get_branch_info raw).trackshort = true) :
    classify_step sd now gone merged unmerged current acc (b, raw) =
      { acc with ahead := acc.ahead ++
          [mkBranchInfo current b (get_branch_info raw) .AHEAD] } := by
  simp [classify_step, hp, ha, finalCategory]

/-- A non-ahead branch that is both gone and merged lands in *both* the
gone-remote and the merged list, and both (aliased) entries carry the final
category `MERGED`; the stale list is untouched because the object is found
in `categories[MERGED]`. -/
theorem classify_step_gone_merged (sd now : Int)
    (gone merged unmerged : List String) (current : String) (acc : Categories)
    (b : String) (raw : RawBranchData)
    (hp : is_protected_branch current b = false)
    (ha : aheadCheck (get_branch_info raw).trackshort = false)
    (hg : b ∈ gone) (hm : b ∈ merged) :
    classify_step sd now gone merged unmerged current acc (b, raw) =
      { acc with
          gone_remote := acc.gone_remote ++
            [mkBranchInfo current b (get_branch_info raw) .MERGED],
          merged := acc.merged ++
            [mkBranchInfo current b (get_branch_info raw) .MERGED] } := by
  simp [classify_step, hp, ha, hg, hm, finalCategory, Categories.get,
    mkBranchInfo]

/-- A non-ahead, non-gone, merged branch is appended to the merged list
only; never to the stale list, whatever its age. -/
theorem classify_step_merged_only (sd now : Int)
    (gone merged unmerged : List String) (current : String) (acc : Categories)
    (b : String) (raw : RawBranchData)
    (hp : is_protected_branch current b = false)
    (ha : aheadCheck (get_branch_info raw).trackshort = false)
    (hg : b ∉ gone) (hm : b ∈ merged) :
    classify_step sd now gone merged unmerged current acc (b, raw) =
      { acc with merged := acc.merged ++
          [mkBranchInfo current b (get_branch_info raw) .MERGED] } := by
  simp [classify_step, hp, ha, hg, hm, finalCategory, Categories.get,
    mkBranchInfo]

/-- A non-ahead branch that is gone and unmerged lands in both the
gone-remote and the unmerged list, both entries carrying `UNMERGED`. -/
theorem classify_step_gone_unmerged (sd now : Int)
    (gone merged unmerged : List String) (current : String) (acc : Categories)
    (b : String) (raw : RawBranchData)
    (hp : is_protected_branch current b = false)
    (ha : aheadCheck (get_branch_info raw).trackshort = false)
    (hg : b ∈ gone) (hm : b ∉ merged) (hu : b ∈ unmerged) :
    classify_step sd now gone merged unmerged current acc (b, raw) =
      { acc with
          gone_remote := acc.gone_remote ++
            [mkBranchInfo current b (get_branch_info raw) .UNMERGED],
          unmerged := acc.unmerged ++
            [mkBranchInfo current b (get_branch_info raw) .UNMERGED] } := by
  simp [classify_step, hp, ha, hg, hm, hu, finalCategory, Categories.get,
    mkBranchInfo]

/-- A non-ahead, non-gone, unmerged branch is appended to the unmerged list
only. -/
theorem classify_step_unmerged_only (sd now : Int)
    (gone merged unmerged : List String) (current : String) (acc : Categories)
    (b : String) (raw : RawBranchData)
    (hp : is_protected_branch current b = false)
    (ha : aheadCheck (get_branch_info raw).trackshort = false)
    (hg : b ∉ gone) (hm : b ∉ merged) (hu : b ∈ unmerged) :
    classify_step sd now gone merged unmerged current acc (b, raw) =
      { acc with unmerged := acc.unmerged ++
          [mkBranchInfo current b (get_branch_info raw) .UNMERGED] } := by
  simp [classify_step, hp, ha, hg, hm, hu, finalCategory, Categories.get,
    mkBranchInfo]

/-- A non-ahead, gone branch that is neither merged nor unmerged keeps the
category `GONE_REMOTE` and is appended to the gone-remote list only. -/
theorem classify_step_gone_only (sd now : Int)
    (gone merged unmerged : List String) (current : String) (acc : Categories)
    (b : String) (raw : RawBranchData)
    (hp : is_protected_branch current b = false)
    (ha : aheadCheck (get_branch_info raw).trackshort = false)
    (hg : b ∈ gone) (hm : b ∉ merged) (hu : b ∉ unmerged) :
    classify_step sd now gone merged unmerged current acc (b, raw) =
      { acc with gone_remote := acc.gone_remote ++
          [mkBranchInfo current b (get_branch_info raw) .GONE_REMOTE] } := by
  simp [classify_step, hp, ha, hg, hm, hu, finalCategory, Categories.get,
    mkBranchInfo]

/-- A branch matching none of the rules keeps the default category `MERGED`
without being appended to any rule list; only then can the staleness check
(lines 227-231) append it — to the stale list, still labelled `MERGED`. -/
theorem classify_step_uncategorized (sd now : Int)
    (gone merged unmerged : List String) (current : String) (acc : Categories)
    (b : String) (raw : RawBranchData)
    (hp : is_protected_branch current b = false)
    (ha : aheadCheck (get_branch_info raw).trackshort = false)
    (hg : b ∉ gone) (hm : b ∉ merged) (hu : b ∉ unmerged) :
    classify_step sd now gone merged unmerged current acc (b, raw) =
      (if is_stale sd now (get_branch_info raw).commit_date ∧
          mkBranchInfo current b (get_branch_info raw) .MERGED ∉ acc.merged then
        { acc with stale := acc.stale ++
            [mkBranchInfo current b (get_branch_info raw) .MERGED] }
      else acc) := by
  simp only [classify_step, hp, ha, hg, hm, hu, finalCategory, Categories.get,
    Bool.false_eq_true, if_false, ite_false, ite_true, not_false_eq_true,
    if_neg, if_pos]
  by_cases hs : is_stale sd now (get_branch_info raw).commit_date <;>
    by_cases hmem :
      mkBranchInfo current b (get_branch_info raw) .MERGED ∈ acc.merged <;>
    simp [hs, hmem, mkBranchInfo, Categories.get]

/-- Exact number of entries one branch contributes for its own name, when
the branch is non-protected and reported by `git branch --merged` or
`--no-merged`: one entry, except that a gone non-ahead branch contributes
two. -/
theorem countIn_classify_step_self (sd now : Int)
    (gone merged unmerged : List String) (current : String) (acc : Categories)
    (b : String) (raw : RawBranchData)
    (hp : is_protected_branch current b = false)
    (hmu : b ∈ merged ∨ b ∈ unmerged) :
    countIn (classify_step sd now gone merged unmerged current acc (b, raw)) b =
      countIn acc b +
        (if aheadCheck (get_branch_info raw).trackshort then 1
         else if b ∈ gone then 2 else 1) := by
  by_cases ha : aheadCheck (get_branch_info raw).trackshort
  · rw [classify_step_ahead sd now gone merged unmerged current acc b raw hp ha]
    simp [ha, countIn, countNames, List.countP_append, List.countP_cons,
      mkBranchInfo]
    omega
  · have ha' : aheadCheck (get_branch_info raw).trackshort = false := by
      simpa using ha
    by_cases hm : b ∈ merged
    · by_cases hg : b ∈ gone
      · rw [classify_step_gone_merged sd now gone merged unmerged current acc
          b raw hp ha' hg hm]
        simp [ha', hg, countIn, countNames, List.countP_append,
          List.countP_cons, mkBranchInfo]
        omega
      · rw [classify_step_merged_only sd now gone merged unmerged current acc
          b raw hp ha' hg hm]
        simp [ha', hg, countIn, countNames, List.countP_append,
          List.countP_cons, mkBranchInfo]
        omega
    · have hu : b ∈ unmerged := hmu.resolve_left hm
      by_cases hg : b ∈ gone
      · rw [classify_step_gone_unmerged sd now gone merged unmerged current acc
          b raw hp ha' hg hm hu]
        simp [ha', hg, countIn, countNames, List.countP_append,
          List.countP_cons, mkBranchInfo]
        omega
      · rw [classify_step_unmerged_only sd now gone merged unmerged current acc
          b raw hp ha' hg hm hu]
        simp [ha', hg, countIn, countNames, List.countP_append,
          List.countP_cons, mkBranchInfo]
        omega

/-- Folding over branches whose names all differ from `n` leaves the entry
count for `n` unchanged. -/
theorem countIn_foldl_ne (sd now : Int)
    (gone merged unmerged : List String) (current : String) (n : String) :
    ∀ (pairs : List (String × RawBranchData)) (acc : Categories),
      (∀ p ∈ pairs, p.1 ≠ n) →
      countIn (pairs.foldl
        (classify_step sd now gone merged unmerged current) acc) n =
        countIn acc n := by
  intro pairs
  induction pairs with
  | nil => intro acc _; rfl
  | cons p t ih =>
    intro acc h
    rw [List.foldl_cons,
      ih _ (fun q hq => h q (List.mem_cons_of_mem _ hq))]
    obtain ⟨b, raw⟩ := p
    exact countIn_classify_step_ne sd now gone merged unmerged current acc
      b raw n (h ⟨b, raw⟩ (List.mem_cons_self _ _))

/-- Exact entry count of one listed branch over a whole fold, for any
starting accumulator, provided branch names are pairwise distinct. -/
theorem countIn_foldl_mem (sd now : Int)
    (gone merged unmerged : List String) (current : String) :
    ∀ (pairs : List (String × RawBranchData)) (acc : Categories)
      (b : String) (raw : RawBranchData),
      (pairs.map Prod.fst).Nodup → (b, raw) ∈ pairs →
      is_protected_branch current b = false →
      (b ∈ merged ∨ b ∈ unmerged) →
      countIn (pairs.foldl
        (classify_step sd now gone merged unmerged current) acc) b =
        countIn acc b +
          (if aheadCheck (get_branch_info raw).trackshort then 1
           else if b ∈ gone then 2 else 1) := by
  intro pairs
  induction pairs with
  | nil => intro acc b raw _ hmem; exact absurd hmem (List.not_mem_nil _)
  | cons p t ih =>
    intro acc b raw hnd hmem hp hmu
    rw [List.map_cons, List.nodup_cons] at hnd
    rw [List.foldl_cons]
    rcases List.mem_cons.mp hmem with heq | htail
    · have hb1 : p.1 = b := by rw [← heq]
      have hnotin : ∀ q ∈ t, q.1 ≠ b := by
        intro q hq hqb
        exact hnd.1 (hb1 ▸ hqb ▸ List.mem_map_of_mem Prod.fst hq)
      rw [countIn_foldl_ne sd now gone merged unmerged current b t _ hnotin,
        ← heq]
      exact countIn_classify_step_self sd now gone merged unmerged current acc
        b raw hp hmu
    · have hb1 : p.1 ≠ b := by
        intro hqb
        exact hnd.1 (hqb ▸ List.mem_map_of_mem Prod.fst htail)
      rw [ih _ b raw hnd.2 htail hp hmu]
      obtain ⟨b', raw'⟩ := p
      rw [countIn_classify_step_ne sd now gone merged unmerged current acc
        b' raw' b hb1]

/-- A protected name contributes no entry, over a whole fold from any
starting accumulator. -/
theorem countIn_foldl_protected (sd now : Int)
    (gone merged unmerged : List String) (current : String) (b : String)
    (hb : is_protected_branch current b = true) :
    ∀ (pairs : List (String × RawBranchData)) (acc : Categories),
      countIn (pairs.foldl
        (classify_step sd now gone merged unmerged current) acc) b =
        countIn acc b := by
  intro pairs
  induction pairs with
  | nil => intro acc; rfl
  | cons p t ih =>
    intro acc
    rw [List.foldl_cons, ih]
    by_cases hpb : p.1 = b
    · rw [classify_step_protected sd now gone merged unmerged current acc p
        (hpb ▸ hb)]
    · obtain ⟨b', raw'⟩ := p
      exact countIn_classify_step_ne sd now gone merged unmerged current acc
        b' raw' b hpb

/-- The wall-clock reading influences one loop iteration only through
`_is_stale`. -/
theorem classify_step_now_congr (sd now1 now2 : Int)
    (gone merged unmerged : List String) (current : String) (acc : Categories)
    (pair : String × RawBranchData)
    (h : ∀ cd, is_stale sd now1 cd = is_stale sd now2 cd) :
    classify_step sd now1 gone merged unmerged current acc pair =
      classify_step sd now2 gone merged unmerged current acc pair := by
  simp only [classify_step, h]

/-- A branch whose staleness test is false never extends the stale list. -/
theorem classify_step_stale_of_not_stale (sd now : Int)
    (gone merged unmerged : List String) (current : String) (acc : Categories)
    (b : String) (raw : RawBranchData)
    (hs : is_stale sd now (get_branch_info raw).commit_date = false) :
    (classify_step sd now gone merged unmerged current acc (b, raw)).stale =
      acc.stale := by
  simp only [classify_step, mkBranchInfo, hs, Bool.false_eq_true, if_false,
    ite_false]
  split_ifs <;> rfl

/-- A non-ahead branch assigned one of `GONE_REMOTE`, `MERGED`, `UNMERGED`
never extends the stale list: the freshly appended object is found in its
own category list, so the `if branch_info not in ...` guard fails. -/
theorem classify_step_stale_of_categorized (sd now : Int)
    (gone merged unmerged : List String) (current : String) (acc : Categories)
    (b : String) (raw : RawBranchData)
    (hp : is_protected_branch current b = false)
    (ha : aheadCheck (get_branch_info raw).trackshort = false)
    (h : b ∈ gone ∨ b ∈ merged ∨ b ∈ unmerged) :
    (classify_step sd now gone merged unmerged current acc (b, raw)).stale =
      acc.stale := by
  by_cases hm : b ∈ merged
  · by_cases hg : b ∈ gone
    · rw [classify_step_gone_merged sd now gone merged unmerged current acc
        b raw hp ha hg hm]
    · rw [classify_step_merged_only sd now gone merged unmerged current acc
        b raw hp ha hg hm]
  · by_cases hu : b ∈ unmerged
    · by_cases hg : b ∈ gone
      · rw [classify_step_gone_unmerged sd now gone merged unmerged current acc
          b raw hp ha hg hm hu]
      · rw [classify_step_unmerged_only sd now gone merged unmerged current acc
          b raw hp ha hg hm hu]
    · have hg : b ∈ gone := by tauto
      rw [classify_step_gone_only sd now gone merged unmerged current acc
        b raw hp ha hg hm hu]

/-! ## Claims -/

/-- Facts of a branch that is simultaneously gone on the remote and merged:
recent commit, no upstream line, so neither ahead nor stale. -/
def rawC1 : RawBranchData :=
  ⟨"2024-05-30 10:00:00 +0900|2 days ago", "wip", ""⟩

/-- C1 counterexample: a non-excluded branch (`feat`) that is both in the
gone set and in the merged set appears in the `GONE_REMOTE` list *and* in
the `MERGED` list of the same run — refuting "each non-excluded branch
appears in exactly one category's result list" and in particular "no branch
appears simultaneously in the GoneRemote list and in the Merged list". -/
theorem C1_counterexample :
    ((analyze_branches 30 (daysFromCivil 2024 6 1 * 86400) ["feat"] ["feat"]
        [] "main" [("feat", rawC1)]).gone_remote.map
      (fun bi => bi.name) = ["feat"]) ∧
    ((analyze_branches 30 (daysFromCivil 2024 6 1 * 86400) ["feat"] ["feat"]
        [] "main" [("feat", rawC1)]).merged.map
      (fun bi => bi.name) = ["feat"]) := by
  decide

/-- C1 (amended): over any run with pairwise-distinct branch names, a
non-excluded branch reported by the merged or unmerged query appears in at
least one category list, and in exactly one — except that a non-ahead branch
whose remote is gone appears in exactly two (the GoneRemote list plus its
Merged or Unmerged list); each entry still carries exactly one category
value. -/
theorem C1_branch_list_occurrences (sd now : Int)
    (gone merged unmerged : List String) (current : String)
    (branches : List (String × RawBranchData)) (b : String)
    (raw : RawBranchData)
    (hnd : (branches.map Prod.fst).Nodup)
    (hmem : (b, raw) ∈ branches)
    (hp : is_protected_branch current b = false)
    (hmu : b ∈ merged ∨ b ∈ unmerged) :
    countIn (analyze_branches sd now gone merged unmerged current branches) b =
      (if aheadCheck (get_branch_info raw).trackshort then 1
       else if b ∈ gone then 2 else 1) := by
  unfold analyze_branches
  rw [countIn_foldl_mem sd now gone merged unmerged current branches
    Categories.empty b raw hnd hmem hp hmu]
  simp [countIn, countNames, Categories.empty]

/-- C1 witness: the amended count theorem evaluated on a concrete gone and
merged branch, which occurs twice. -/
theorem C1_witness :
    countIn (analyze_branches 30 0 ["feat"] ["feat"] [] "main"
      [("feat", rawC1)]) "feat" = 2 := by
  rw [C1_branch_list_occurrences 30 0 ["feat"] ["feat"] [] "main"
    [("feat", rawC1)] "feat" rawC1 (by decide) (by decide) (by decide)
    (Or.inl (by decide))]
  decide

/-- Facts of a branch that is ahead of its upstream (`trackshort` is `>`),
with an old commit and memberships that would otherwise classify it. -/
def rawC2 : RawBranchData :=
  ⟨"2023-01-01 09:00:00 +0900|1 year ago", "unpushed work", "origin/wip/y|>"⟩

/-- C2 (confirmed): a non-excluded branch whose `trackshort` contains `>`
is appended to the Ahead list with category `AHEAD` and the iteration stops
there (`continue`), for every accumulator and regardless of the gone /
merged / unmerged sets, the stale threshold and the clock — so it is never
reclassified to Stale or Merged and lands in no other category's list. -/
theorem C2_ahead_priority (sd now : Int)
    (gone merged unmerged : List String) (current : String) (acc : Categories)
    (b : String) (raw : RawBranchData)
    (hp : is_protected_branch current b = false)
    (ha : aheadCheck (get_branch_info raw).trackshort = true) :
    classify_step sd now gone merged unmerged current acc (b, raw) =
      { acc with ahead := acc.ahead ++
          [mkBranchInfo current b (get_branch_info raw) .AHEAD] } :=
  classify_step_ahead sd now gone merged unmerged current acc b raw hp ha

/-- C2 witness: a concrete ahead branch that is also gone, merged and far
older than the stale cutoff still goes only to the Ahead list. -/
theorem C2_witness :
    classify_step 30 (daysFromCivil 2024 6 1 * 86400) ["wip/y"] ["wip/y"] []
      "main" Categories.empty ("wip/y", rawC2) =
      { Categories.empty with
          ahead := [mkBranchInfo "main" "wip/y" (get_branch_info rawC2)
            .AHEAD] } := by
  have h := C2_ahead_priority 30 (daysFromCivil 2024 6 1 * 86400) ["wip/y"]
    ["wip/y"] [] "main" Categories.empty "wip/y" rawC2 (by decide) (by decide)
  simpa [Categories.empty] using h

/-- Facts of the spec's worked example `feature/x`: committed 2024-01-01,
merged, tracking even, remote present. -/
def rawC3 : RawBranchData :=
  ⟨"2024-01-01 12:00:00 +0900|5 months ago", "feature work",
    "origin/feature/x|="⟩

/-- C3 counterexample: the spec's own example (staleDays 30, run on
2024-06-01, branch merged with last commit 2024-01-01).  The branch *is*
older than the cutoff, yet the run leaves the stale list empty and files the
branch under `MERGED` — there is no reclassification to Stale. -/
theorem C3_counterexample :
    is_stale 30 (daysFromCivil 2024 6 1 * 86400)
      "2024-01-01 12:00:00 +0900" = true ∧
    (analyze_branches 30 (daysFromCivil 2024 6 1 * 86400) [] ["feature/x"] []
      "main" [("feature/x", rawC3)]).stale = [] ∧
    ((analyze_branches 30 (daysFromCivil 2024 6 1 * 86400) [] ["feature/x"]
        [] "main" [("feature/x", rawC3)]).merged.map
      (fun bi => (bi.name, bi.category)) =
      [("feature/x", BranchCategory.MERGED)]) := by
  decide

/-- C3 (amended): a branch assigned `GONE_REMOTE`, `MERGED` or `UNMERGED`
keeps that category even when its last commit is older than the cutoff — the
stale list is only ever extended with branches matching *none* of the rules,
and such an entry carries the default category `MERGED` rather than a record
of a prior category. -/
theorem C3_stale_is_fallback_only (sd now : Int)
    (gone merged unmerged : List String) (current : String) (acc : Categories)
    (b : String) (raw : RawBranchData)
    (hp : is_protected_branch current b = false)
    (ha : aheadCheck (get_branch_info raw).trackshort = false) :
    ((b ∈ gone ∨ b ∈ merged ∨ b ∈ unmerged) →
      (classify_step sd now gone merged unmerged current acc (b, raw)).stale =
        acc.stale) ∧
    (b ∉ gone → b ∉ merged → b ∉ unmerged →
      is_stale sd now (get_branch_info raw).commit_date = true →
      mkBranchInfo current b (get_branch_info raw) .MERGED ∉ acc.merged →
      classify_step sd now gone merged unmerged current acc (b, raw) =
        { acc with stale := acc.stale ++
            [mkBranchInfo current b (get_branch_info raw) .MERGED] }) := by
  constructor
  · intro h
    exact classify_step_stale_of_categorized sd now gone merged unmerged
      current acc b raw hp ha h
  · intro hg hm hu hs hmem
    rw [classify_step_uncategorized sd now gone merged unmerged current acc
      b raw hp ha hg hm hu]
    simp [hs, hmem]

/-- C3 witness: the fallback theorem evaluated on the spec's example branch
— merged and old keeps the stale list empty; the same facts with no merge
information land in the stale list labelled `MERGED`. -/
theorem C3_witness :
    (classify_step 30 (daysFromCivil 2024 6 1 * 86400) [] ["feature/x"] []
      "main" Categories.empty ("feature/x", rawC3)).stale = [] ∧
    classify_step 30 (daysFromCivil 2024 6 1 * 86400) [] [] [] "main"
      Categories.empty ("feature/x", rawC3) =
      { Categories.empty with stale :=
          [mkBranchInfo "main" "feature/x" (get_branch_info rawC3)
            .MERGED] } := by
  constructor
  · exact (C3_stale_is_fallback_only 30 (daysFromCivil 2024 6 1 * 86400) []
      ["feature/x"] [] "main" Categories.empty "feature/x" rawC3 (by decide)
      (by decide)).1 (Or.inr (Or.inl (by decide)))
  · have h := (C3_stale_is_fallback_only 30 (daysFromCivil 2024 6 1 * 86400)
      [] [] [] "main" Categories.empty "feature/x" rawC3 (by decide)
      (by decide)).2 (by decide) (by decide) (by decide) (by decide)
      (by decide)
    simpa [Categories.empty] using h

/-- Facts of a branch whose remote is gone and whose commit is recent. -/
def rawC4 : RawBranchData :=
  ⟨"2024-05-20 10:00:00 +0900|5 days ago", "old remote work",
    "origin/old-br|"⟩

/-- C4 counterexample: a branch with the remote gone *and* merged ends the
run with category `MERGED` (the GoneRemote tag is overridden by the later
assignment) and is filed in the Merged list as well — refuting "categorized
GoneRemote, not Merged, and its GoneRemote tag is never overridden". -/
theorem C4_counterexample :
    ((analyze_branches 30 (daysFromCivil 2024 6 1 * 86400) ["old-br"]
        ["old-br"] [] "main" [("old-br", rawC4)]).gone_remote.map
      (fun bi => (bi.name, bi.category)) =
      [("old-br", BranchCategory.MERGED)]) ∧
    ((analyze_branches 30 (daysFromCivil 2024 6 1 * 86400) ["old-br"]
        ["old-br"] [] "main" [("old-br", rawC4)]).merged.map
      (fun bi => (bi.name, bi.category)) =
      [("old-br", BranchCategory.MERGED)]) := by
  decide

/-- C4 (amended): a non-ahead branch with the remote gone is appended to the
GoneRemote list, but the merged / unmerged rules still apply to it: when the
branch is also merged, its category field is overwritten to `MERGED` (the
entry in the GoneRemote list shows the override, since all entries alias one
object) and it is appended to the Merged list too.  The effective precedence
for the category field is Ahead, then Merged, then Unmerged, then
GoneRemote. -/
theorem C4_gone_overridden (sd now : Int)
    (gone merged unmerged : List String) (current : String) (acc : Categories)
    (b : String) (raw : RawBranchData)
    (hp : is_protected_branch current b = false)
    (ha : aheadCheck (get_branch_info raw).trackshort = false)
    (hg : b ∈ gone) :
    ((classify_step sd now gone merged unmerged current acc
        (b, raw)).gone_remote =
      acc.gone_remote ++ [mkBranchInfo current b (get_branch_info raw)
        (finalCategory gone merged unmerged b false)]) ∧
    (b ∈ merged →
      finalCategory gone merged unmerged b false = .MERGED ∧
      (classify_step sd now gone merged unmerged current acc (b, raw)).merged =
        acc.merged ++
          [mkBranchInfo current b (get_branch_info raw) .MERGED]) := by
  by_cases hm : b ∈ merged
  · have hcat : finalCategory gone merged unmerged b false = .MERGED := by
      simp [finalCategory, hm]
    rw [classify_step_gone_merged sd now gone merged unmerged current acc
      b raw hp ha hg hm, hcat]
    exact ⟨rfl, fun _ => ⟨rfl, rfl⟩⟩
  · by_cases hu : b ∈ unmerged
    · have hcat : finalCategory gone merged unmerged b false = .UNMERGED := by
        simp [finalCategory, hm, hu]
      rw [classify_step_gone_unmerged sd now gone merged unmerged current acc
        b raw hp ha hg hm hu, hcat]
      exact ⟨rfl, fun hm' => absurd hm' hm⟩
    · have hcat : finalCategory gone merged unmerged b false =
          .GONE_REMOTE := by
        simp [finalCategory, hm, hu, hg]
      rw [classify_step_gone_only sd now gone merged unmerged current acc
        b raw hp ha hg hm hu, hcat]
      exact ⟨rfl, fun hm' => absurd hm' hm⟩

/-- C4 witness: the override evaluated on a concrete gone and merged
branch. -/
theorem C4_witness :
    (classify_step 30 0 ["old-br"] ["old-br"] [] "main" Categories.empty
      ("old-br", rawC4)).gone_remote =
      [mkBranchInfo "main" "old-br" (get_branch_info rawC4) .MERGED] ∧
    (classify_step 30 0 ["old-br"] ["old-br"] [] "main" Categories.empty
      ("old-br", rawC4)).merged =
      [mkBranchInfo "main" "old-br" (get_branch_info rawC4) .MERGED] := by
  have h := C4_gone_overridden 30 0 ["old-br"] ["old-br"] [] "main"
    Categories.empty "old-br" rawC4 (by decide) (by decide) (by decide)
  refine ⟨?_, ?_⟩
  · have h1 := h.1
    rw [show finalCategory ["old-br"] ["old-br"] [] "old-br" false =
      .MERGED by decide] at h1
    simpa [Categories.empty] using h1
  · have h2 := (h.2 (by decide)).2
    simpa [Categories.empty] using h2

/-- C5 counterexample: `2024-05-02` *is* the boundary day for a run on
2024-06-01 with staleDays 30 (today minus 30 days), yet when the script runs
at 01:00 the predicate evaluates true — because `_is_stale` compares the
commit date at midnight against `datetime.now()` minus a 30-day timedelta,
which carries the invocation's time of day. -/
theorem C5_counterexample :
    daysFromCivil 2024 5 2 = daysFromCivil 2024 6 1 - 30 ∧
    is_stale 30 (daysFromCivil 2024 6 1 * 86400 + 3600)
      "2024-05-02 09:00:00 +0900" = true := by
  decide

/-- C5 (amended): the predicate ignores the commit's time of day (only the
`%Y-%m-%d` prefix is parsed) but *not* the invocation's: for a commit on the
boundary day (commit day = invocation day minus staleDays) the predicate is
true exactly when the invocation happens strictly after midnight.  With the
invocation instant written as `(day + sd) * 86400 + sec`, staleness equals
`0 < sec`. -/
theorem C5_boundary_day (cd : String) (day sd sec : Int)
    (hparse : parse_commit_day cd = some day) :
    is_stale sd ((day + sd) * 86400 + sec) cd = decide (0 < sec) := by
  simp only [is_stale, hparse, decide_eq_decide]
  omega

/-- C5 witness: the boundary-day rule evaluated at a concrete date and one
hour past midnight. -/
theorem C5_witness :
    is_stale 30 ((daysFromCivil 2024 5 2 + 30) * 86400 + 3600)
      "2024-05-02 09:00:00 +0900" = true := by
  rw [C5_boundary_day "2024-05-02 09:00:00 +0900" (daysFromCivil 2024 5 2)
    30 3600 (by decide)]
  decide

/-- C6 (confirmed): when the `git log` date query returns nothing, the
branch's `commit_date` is the empty string and its age renders as the
unknown marker `不明`; the staleness predicate evaluates false on it, the
stale list is never extended for such a branch, and the iteration completes
normally (the equations below are total — no abort path exists). -/
theorem C6_missing_date (sd now : Int) (raw : RawBranchData)
    (h : raw.date_output = "") :
    (get_branch_info raw).commit_date = "" ∧
    (get_branch_info raw).relative_date = "不明" ∧
    is_stale sd now (get_branch_info raw).commit_date = false ∧
    (∀ (gone merged unmerged : List String) (current : String)
      (acc : Categories) (b : String),
      (classify_step sd now gone merged unmerged current acc (b, raw)).stale =
        acc.stale) := by
  have hcd : (get_branch_info raw).commit_date = "" := by
    simp [get_branch_info, h]
  have hrd : (get_branch_info raw).relative_date = "不明" := by
    simp [get_branch_info, h]
  have hst : is_stale sd now (get_branch_info raw).commit_date = false := by
    rw [hcd]; rfl
  refine ⟨hcd, hrd, hst, ?_⟩
  intro gone merged unmerged current acc b
  exact classify_step_stale_of_not_stale sd now gone merged unmerged current
    acc b raw hst

/-- Facts of a branch with no commit-date output. -/
def rawC6 : RawBranchData := ⟨"", "some subject", ""⟩

/-- C6 witness: the missing-date behaviour evaluated on a concrete branch
with no date output. -/
theorem C6_witness :
    (get_branch_info rawC6).commit_date = "" ∧
    (get_branch_info rawC6).relative_date = "不明" ∧
    is_stale 30 (daysFromCivil 2024 6 1 * 86400)
      (get_branch_info rawC6).commit_date = false ∧
    (classify_step 30 (daysFromCivil 2024 6 1 * 86400) [] [] [] "main"
      Categories.empty ("no-date", rawC6)).stale = [] := by
  have h := C6_missing_date 30 (daysFromCivil 2024 6 1 * 86400) rawC6 rfl
  exact ⟨h.1, h.2.1, h.2.2.1,
    h.2.2.2 [] [] [] "main" Categories.empty "no-date"⟩

/-- C7 (confirmed): a branch whose name is in `PROTECTED_BRANCHES` (which
contains `main`), or equals the current branch, or is empty, is reported
protected and contributes no entry to any category list of any run,
whatever its facts and memberships — it is skipped silently by `continue`,
with no error path. -/
theorem C7_protected_excluded (current b : String)
    (h : b ∈ PROTECTED_BRANCHES ∨ b = current ∨ b = "") :
    "main" ∈ PROTECTED_BRANCHES ∧
    is_protected_branch current b = true ∧
    ∀ (sd now : Int) (gone merged unmerged : List String)
      (branches : List (String × RawBranchData)),
      countIn (analyze_branches sd now gone merged unmerged current branches)
        b = 0 := by
  have hb : is_protected_branch current b = true := by
    rcases h with h | h | h <;> simp [is_protected_branch, h]
  refine ⟨by decide, hb, ?_⟩
  intro sd now gone merged unmerged branches
  unfold analyze_branches
  rw [countIn_foldl_protected sd now gone merged unmerged current b hb]
  simp [countIn, countNames, Categories.empty]

/-- Facts that would classify a branch as merged, were it not protected. -/
def rawC7 : RawBranchData :=
  ⟨"2024-01-01 10:00:00 +0900|5 months ago", "trunk work", "origin/main|="⟩

/-- C7 witness: `main`, reported merged and old, still contributes no entry
at all. -/
theorem C7_witness :
    countIn (analyze_branches 30 (daysFromCivil 2024 6 1 * 86400) [] ["main"]
      [] "feature/z" [("main", rawC7)]) "main" = 0 :=
  (C7_protected_excluded "feature/z" "main" (Or.inl (by decide))).2.2 30
    (daysFromCivil 2024 6 1 * 86400) [] ["main"] [] [("main", rawC7)]

/-- Facts of a branch matched by no rule, whose commit is from
2024-01-01. -/
def rawC8 : RawBranchData :=
  ⟨"2024-01-01 09:00:00 +0900|a while ago", "subj", ""⟩

/-- C8 counterexample: identical branch facts, identical policy — but the
classification output depends on the wall-clock value `_is_stale` reads via
`datetime.now()` during the run (modelled by the `now` argument): two weeks
after the commit the branch lands nowhere, five months later it lands in
the stale list.  The code offers no explicit "now" parameter, so this clock
reading is internal, refuting "the engine reads no wall clock internally". -/
theorem C8_counterexample :
    analyze_branches 30 (daysFromCivil 2024 1 15 * 86400) [] [] [] "main"
      [("br-a", rawC8)] ≠
    analyze_branches 30 (daysFromCivil 2024 6 1 * 86400) [] [] [] "main"
      [("br-a", rawC8)] := by
  decide

/-- C8 (amended): classification is deterministic as a function of the
branch facts, the policy inputs *and the internally read clock value*:
whenever the staleness predicate agrees at two clock readings (in
particular when the reading is the same), identical inputs yield identical
output.  The dependence on time goes through `datetime.now()` inside
`_is_stale`, not through a parameter. -/
theorem C8_deterministic_given_clock (sd now1 now2 : Int)
    (gone merged unmerged : List String) (current : String)
    (branches : List (String × RawBranchData))
    (h : ∀ cd, is_stale sd now1 cd = is_stale sd now2 cd) :
    analyze_branches sd now1 gone merged unmerged current branches =
      analyze_branches sd now2 gone merged unmerged current branches := by
  unfold analyze_branches
  suffices hgen : ∀ acc : Categories,
      branches.foldl (classify_step sd now1 gone merged unmerged current)
        acc =
        branches.foldl (classify_step sd now2 gone merged unmerged current)
          acc by
    exact hgen Categories.empty
  induction branches with
  | nil => intro acc; rfl
  | cons p t ih =>
    intro acc
    rw [List.foldl_cons, List.foldl_cons,
      classify_step_now_congr sd now1 now2 gone merged unmerged current acc
        p h]
    exact ih _

/-- C8 witness: determinism at one fixed clock reading. -/
theorem C8_witness :
    analyze_branches 30 (daysFromCivil 2024 6 1 * 86400) [] [] [] "main"
      [("br-a", rawC8)] =
    analyze_branches 30 (daysFromCivil 2024 6 1 * 86400) [] [] [] "main"
      [("br-a", rawC8)] :=
  C8_deterministic_given_clock 30 (daysFromCivil 2024 6 1 * 86400)
    (daysFromCivil 2024 6 1 * 86400) [] [] [] "main" [("br-a", rawC8)]
    (fun _ => rfl)

/-- Facts of a branch committed on the day of the run. -/
def rawC9 : RawBranchData :=
  ⟨"2024-06-01 00:00:00 +0900|now", "todays work", ""⟩

/-- C9 counterexample: `__init__` stores `stale_days = -5` unchanged — there
is no validation and no error value anywhere in the embedding of the
constructor — and classification then runs to completion with the negative
threshold, whose cutoff lies in the future: a branch committed on the very
day of the run comes out "stale".  This refutes "fails fast with a
configuration error before any classification runs". -/
theorem C9_counterexample :
    GitBranchCleanup.init (-5) false "main" "feature/z" =
      { stale_days := -5, dry_run := false, base_branch := "main",
        current_branch := "feature/z" } ∧
    ((analyze_branches (-5) (daysFromCivil 2024 6 1 * 86400) [] [] []
        "feature/z" [("wip", rawC9)]).stale.map (fun bi => bi.name) =
      ["wip"]) := by
  decide

/-- C9 (amended): no validation of `staleDays` exists: the constructor
stores any value, including negative ones, and classification silently
proceeds with it — with a negative `staleDays` the cutoff is in the future,
so even a branch committed on the current day (`now` = commit-day midnight
plus any non-negative time of day) tests stale. -/
theorem C9_no_validation (sd : Int) (dr : Bool) (bb cb : String) :
    (GitBranchCleanup.init sd dr bb cb).stale_days = sd ∧
    (∀ (cd : String) (day sec : Int), parse_commit_day cd = some day →
      sd < 0 → 0 ≤ sec → is_stale sd (day * 86400 + sec) cd = true) := by
  refine ⟨rfl, ?_⟩
  intro cd day sec hparse hsd hsec
  simp only [is_stale, hparse, decide_eq_true_eq]
  omega

/-- C9 witness: the unvalidated configuration evaluated at `staleDays = -5`
and a branch committed at the run's own date. -/
theorem C9_witness :
    (GitBranchCleanup.init (-5) false "main" "feature/z").stale_days = -5 ∧
    is_stale (-5) (daysFromCivil 2024 6 1 * 86400 + 0)
      "2024-06-01 00:00:00 +0900" = true := by
  have h := C9_no_validation (-5) false "main" "feature/z"
  exact ⟨h.1, h.2 "2024-06-01 00:00:00 +0900" (daysFromCivil 2024 6 1) 0
    (by decide) (by decide) (by decide)⟩

/-- C10 (confirmed): with `dry_run` set, `delete_branches` prints the
candidate list followed by the dry-run notice and returns: it issues no git
command at all — in particular no `branch -d` or `branch -D` — and the
repository's branch set is unchanged under the command-effect semantics. -/
theorem C10_dry_run_no_deletion (git_exit : List String → Int) (force : Bool)
    (confirm : String) (branches bs : List String) :
    (delete_branches git_exit true force confirm branches).2 = [] ∧
    applyCmds bs (delete_branches git_exit true force confirm branches).2 =
      bs ∧
    (branches ≠ [] →
      (delete_branches git_exit true force confirm branches).1 =
        ["\n以下のブランチが削除されます："] ++
          branches.map (fun b => "  - " ++ b) ++
          ["\n[ドライラン] 実際には削除されません。"]) := by
  by_cases hb : branches = []
  · subst hb
    exact ⟨rfl, rfl, fun hne => absurd rfl hne⟩
  · refine ⟨?_, ?_, fun _ => ?_⟩ <;>
      simp [delete_branches, hb, applyCmds]

/-- C10 witness: a concrete dry run over one branch: no command, unchanged
branch set, and exactly the candidate list plus the dry-run notice
printed. -/
theorem C10_witness :
    (delete_branches (fun _ => 0) true false "y" ["feature/x"]).2 = [] ∧
    applyCmds ["main", "feature/x"]
      (delete_branches (fun _ => 0) true false "y" ["feature/x"]).2 =
      ["main", "feature/x"] ∧
    (delete_branches (fun _ => 0) true false "y" ["feature/x"]).1 =
      ["\n以下のブランチが削除されます：", "  - feature/x",
        "\n[ドライラン] 実際には削除されません。"] := by
  have h := C10_dry_run_no_deletion (fun _ => 0) false "y" ["feature/x"]
    ["main", "feature/x"]
  refine ⟨h.1, h.2.1, ?_⟩
  have h3 := h.2.2 (by simp)
  simpa using h3

end GBC
